import Mathlib

/-! # Routing core of the microhttpd REST server

A shallow embedding of `src/main.cpp`: the routing key (`identifyRequest`), the
handler registry and fallback of `Server`, the dispatcher `Server::routing`, the two
leaf handlers, the built-in `noHandler`, and the `start`/`stop` lifecycle.

Conventions of the embedding.

* A `std::string` (and a NUL-terminated `const char *`) is the list of its `char`s,
  `CxxString`.  A `char` is a `Char`; the bytes `0..255` are the code points `0..255`,
  so every statement quantified over `CxxString` covers every byte string.
* libmicrohttpd is external.  It is a parameter `MHD σ` (its return values and its own
  state `σ`); every call the program makes to it is also appended to `World.calls`.
* Pointers that may be null are `Option`s (`none` is `NULL`); handles are numbers.
* A `std::function` may be empty: `Handler σ` is `Option (Callable σ)`, and calling the
  empty one throws `std::bad_function_call`.
* Writes to `std::cout` are diagnostic only and are not part of the modelled state.
-/

namespace RestServer

/-! ## Strings and the routing key -/

/-- The contents of a `std::string`, one element per `char`. -/
abbrev CxxString := List Char

/-- The function `std::toupper` in the "C" locale, which is the locale in force because
the program never calls `setlocale`: the letters `a`..`z` (97..122) are moved down by
32, and every other `char`, the ones outside ASCII included, is returned as it is. -/
def toupper (c : Char) : Char :=
  if 'a'.toNat ≤ c.toNat ∧ c.toNat ≤ 'z'.toNat then Char.ofNat (c.toNat - 32) else c

/-- The function `identifyRequest` (main.cpp, lines 204-213): a copy of `_method` is
upper-cased `char` by `char`, and the result is `_path + ':' + method`. -/
def identifyRequest (_path _method : CxxString) : CxxString :=
  let method := _method.map toupper
  _path ++ [':'] ++ method

/-! ### Reference definitions for the wording of the specification -/

/-- The lower-case ASCII letters, in alphabetical order. -/
def asciiLower : List Char := "abcdefghijklmnopqrstuvwxyz".toList

/-- The upper-case ASCII letters, in alphabetical order. -/
def asciiUpper : List Char := "ABCDEFGHIJKLMNOPQRSTUVWXYZ".toList

/-- Each lower-case ASCII letter paired with its upper-case form. -/
def asciiCasePairs : List (Char × Char) := asciiLower.zip asciiUpper

/-- ASCII uppercase of a character, read off the alphabet table: a lower-case ASCII
letter becomes the upper-case letter at the same position, anything else is kept. -/
def asciiUppercase (c : Char) : Char :=
  match asciiCasePairs.lookup c with
  | some u => u
  | none => c

/-- Two characters are equal up to ASCII letter case: they are the same character, or
they are the two case forms of one ASCII letter. -/
def sameUpToAsciiCase (c d : Char) : Bool :=
  c == d || asciiCasePairs.any (fun p => (c == p.1 && d == p.2) || (c == p.2 && d == p.1))

/-- Two strings are equal up to ASCII letter case: same length, and equal up to ASCII
letter case position by position. -/
def equalUpToAsciiCase : CxxString → CxxString → Bool
  | [], [] => true
  | c :: cs, d :: ds => sameUpToAsciiCase c d && equalUpToAsciiCase cs ds
  | _, _ => false

/-! ## The transport library (libmicrohttpd) -/

/-- An `MHD_Connection *`: an opaque connection handle. -/
abbrev MHD_Connection := Nat

/-- A non-null `MHD_Daemon *`: an opaque daemon handle. -/
abbrev MHD_Daemon := Nat

/-- A non-null `MHD_Response *`: an opaque response handle. -/
abbrev MHD_Response := Nat

/-- The enumeration `MHD_Result` of libmicrohttpd. -/
inductive MHD_Result where
  | MHD_NO
  | MHD_YES
  deriving DecidableEq

/-- Modelled from the spec: the status constant `MHD_HTTP_OK` of `microhttpd.h`, a header
that is not among the sources; the specification gives the status 200. -/
def MHD_HTTP_OK : Nat := 200

/-- Modelled from the spec: the status constant `MHD_HTTP_NOT_FOUND` of `microhttpd.h`, a
header that is not among the sources; the specification gives the status 404. -/
def MHD_HTTP_NOT_FOUND : Nat := 404

/-- One call made by the program into libmicrohttpd, with its arguments and, where the
function returns something, the value it returned. -/
inductive MHDCall where
  | start_daemon (port : Nat) (ret : Option MHD_Daemon)
  | stop_daemon (daemon : Option MHD_Daemon)
  | create_response_from_buffer (size : Nat) (buffer : CxxString) (ret : Option MHD_Response)
  | queue_response (connection : MHD_Connection) (status_code : Nat)
      (response : Option MHD_Response) (ret : MHD_Result)
  | destroy_response (response : Option MHD_Response)
  deriving DecidableEq

/-- The behaviour of libmicrohttpd, which is external to the program: for each entry
point the program uses, the value returned and the new library state. -/
structure MHD (σ : Type) where
  start_daemon : Nat → σ → Option MHD_Daemon × σ
  stop_daemon : Option MHD_Daemon → σ → σ
  create_response_from_buffer : Nat → CxxString → σ → Option MHD_Response × σ
  queue_response : MHD_Connection → Nat → Option MHD_Response → σ → MHD_Result × σ
  destroy_response : Option MHD_Response → σ → σ

/-- Everything outside the `Server` object that the program acts on: the state of the
library and the log of the calls made into it, oldest first. -/
structure World (σ : Type) where
  mhd : σ
  calls : List MHDCall

variable {σ : Type}

/-- A call `MHD_start_daemon(MHD_USE_THREAD_PER_CONNECTION, port, NULL, NULL,
&routingCallback, this, MHD_OPTION_END)`; the port parameter is a `uint16_t`. -/
def MHD_start_daemon (lib : MHD σ) (port : Nat) (w : World σ) : Option MHD_Daemon × World σ :=
  let r := lib.start_daemon (port % 2 ^ 16) w.mhd
  (r.1, { mhd := r.2, calls := w.calls ++ [MHDCall.start_daemon (port % 2 ^ 16) r.1] })

/-- A call `MHD_stop_daemon(daemon)`. -/
def MHD_stop_daemon (lib : MHD σ) (daemon : Option MHD_Daemon) (w : World σ) : World σ :=
  { mhd := lib.stop_daemon daemon w.mhd, calls := w.calls ++ [MHDCall.stop_daemon daemon] }

/-- A call `MHD_create_response_from_buffer(size, buffer, MHD_RESPMEM_MUST_COPY)`. -/
def MHD_create_response_from_buffer (lib : MHD σ) (size : Nat) (buffer : CxxString)
    (w : World σ) : Option MHD_Response × World σ :=
  let r := lib.create_response_from_buffer size buffer w.mhd
  (r.1, { mhd := r.2,
          calls := w.calls ++ [MHDCall.create_response_from_buffer size buffer r.1] })

/-- A call `MHD_queue_response(connection, status_code, response)`. -/
def MHD_queue_response (lib : MHD σ) (connection : MHD_Connection) (status_code : Nat)
    (response : Option MHD_Response) (w : World σ) : MHD_Result × World σ :=
  let r := lib.queue_response connection status_code response w.mhd
  (r.1, { mhd := r.2,
          calls := w.calls ++ [MHDCall.queue_response connection status_code response r.1] })

/-- A call `MHD_destroy_response(response)`. -/
def MHD_destroy_response (lib : MHD σ) (response : Option MHD_Response) (w : World σ) :
    World σ :=
  { mhd := lib.destroy_response response w.mhd,
    calls := w.calls ++ [MHDCall.destroy_response response] }

/-! ## Request context and handlers -/

/-- The struct `RequestContext` (main.cpp, lines 10-17). -/
structure RequestContext where
  connection : MHD_Connection
  url : CxxString
  method : CxxString
  upload_data : CxxString
  upload_data_size : Nat
  deriving DecidableEq

/-- A callable target: what runs when a non-empty `Handler` is invoked with a (shared
pointer to a) request context. -/
abbrev Callable (σ : Type) := RequestContext → World σ → MHD_Result × World σ

/-- The type `Handler` (main.cpp, lines 19-20), a `std::function`: `none` is the empty
function object, `some f` holds the target `f`. -/
abbrev Handler (σ : Type) := Option (Callable σ)

/-- What a C++ call can throw in this program. -/
inductive CxxException where
  | bad_function_call
  deriving DecidableEq

/-- The member `ErrorHandler::notFound` (main.cpp, lines 34-51). -/
def ErrorHandler.notFound (lib : MHD σ) : Callable σ := fun _ctx w =>
  let body : CxxString := "Unknown request: \"".toList ++ _ctx.url ++ "\"\n".toList
  let response := MHD_create_response_from_buffer lib body.length body w
  let ret := MHD_queue_response lib _ctx.connection MHD_HTTP_NOT_FOUND response.1 response.2
  let w3 := MHD_destroy_response lib response.1 ret.2
  (ret.1, w3)

/-- The member `HealthHandler::handle` (main.cpp, lines 57-71). -/
def HealthHandler.handle (lib : MHD σ) : Callable σ := fun _ctx w =>
  let body : CxxString := "\x7b\"status\":\"UP\"\x7d\n".toList
  let response := MHD_create_response_from_buffer lib body.length body w
  let ret := MHD_queue_response lib _ctx.connection MHD_HTTP_OK response.1 response.2
  let w3 := MHD_destroy_response lib response.1 ret.2
  (ret.1, w3)

/-! ## The server -/

/-- The `std::map<std::string, const Handler>` of the server, as the list of its
entries.  Only `find` and `emplace` are used on it, so the order of the entries is
never observed. -/
abbrev HandlerMap (σ : Type) := List (CxxString × Handler σ)

/-- The lookup `std::map::find`: the mapped value of the entry with the given key, or
`none` for `end()`. -/
def HandlerMap.find : HandlerMap σ → CxxString → Option (Handler σ)
  | [], _ => none
  | (k, h) :: rest, key => if k = key then some h else HandlerMap.find rest key

/-- The insertion `std::map::emplace`: a new entry is added only when no entry with an
equal key exists; otherwise the map is left as it is. -/
def HandlerMap.emplace (m : HandlerMap σ) (key : CxxString) (h : Handler σ) : HandlerMap σ :=
  match m.find key with
  | some _ => m
  | none => m ++ [(key, h)]

/-- The data members of `class Server` (main.cpp, lines 173-176). -/
structure Server (σ : Type) where
  m_service : Option MHD_Daemon
  m_handlers : HandlerMap σ
  m_not_found_handler : Handler σ

/-- The constructor `Server::Server()` (main.cpp, lines 77-80): the daemon handle is
null, the map and the fallback are default-constructed (empty). -/
def Server.new : Server σ :=
  { m_service := none, m_handlers := [], m_not_found_handler := none }

/-- The member `Server::notFound` (main.cpp, lines 90-93). -/
def Server.notFound (s : Server σ) (_handler : Handler σ) : Server σ :=
  { s with m_not_found_handler := _handler }

/-- The member `Server::route` (main.cpp, lines 95-102). -/
def Server.route (s : Server σ) (_path _method : CxxString) (_handler : Handler σ) :
    Server σ :=
  let key := identifyRequest _path _method
  { s with m_handlers := s.m_handlers.emplace key _handler }

/-- The member `Server::start` (main.cpp, lines 104-120): the address and the third
argument are unused, and a null result of `MHD_start_daemon` is stored like any other. -/
def Server.start (lib : MHD σ) (s : Server σ) (_address : CxxString) (_port : Nat)
    (_threads : Nat) (w : World σ) : Server σ × World σ :=
  let r := MHD_start_daemon lib _port w
  ({ s with m_service := r.1 }, r.2)

/-- The member `Server::stop` (main.cpp, lines 122-126). -/
def Server.stop (lib : MHD σ) (s : Server σ) (w : World σ) : Server σ × World σ :=
  let w1 := MHD_stop_daemon lib s.m_service w
  ({ s with m_service := none }, w1)

/-- The destructor `Server::~Server` (main.cpp, lines 82-88): `stop()` is called only
when the daemon handle is not null. -/
def Server.destroy (lib : MHD σ) (s : Server σ) (w : World σ) : World σ :=
  match s.m_service with
  | some _ => (s.stop lib w).2
  | none => w

/-- The member `Server::noHandler` (main.cpp, lines 156-170). -/
def Server.noHandler (lib : MHD σ) : Callable σ := fun _ctx w =>
  let body : CxxString := "not found".toList
  let response := MHD_create_response_from_buffer lib body.length body w
  let ret := MHD_queue_response lib _ctx.connection MHD_HTTP_NOT_FOUND response.1 response.2
  let w3 := MHD_destroy_response lib response.1 ret.2
  (ret.1, w3)

/-- A record of one call made by `Server::routing`: which function it called, and the
context it passed. -/
inductive Invocation (σ : Type) where
  | handler (h : Callable σ) (ctx : RequestContext)
  | not_found_handler (h : Callable σ) (ctx : RequestContext)
  | noHandler (ctx : RequestContext)

/-- The effect of one `Server::routing` call: what it returned (or threw) together with
the world it left, and the calls it made, in order. -/
structure Routed (σ : Type) where
  outcome : Except CxxException (MHD_Result × World σ)
  invoked : List (Invocation σ)

/-- The member `Server::routing` (main.cpp, lines 128-154).  A map entry, when found, is
called; otherwise the fallback is called when it is not empty; otherwise `noHandler`.
Calling an empty `std::function` found in the map throws. -/
def Server.routing (lib : MHD σ) (s : Server σ) (_ctx : RequestContext)
    (_version : CxxString) (w : World σ) : Routed σ :=
  let key := identifyRequest _ctx.url _ctx.method
  match s.m_handlers.find key with
  | some handler =>
    match handler with
    | some f => { outcome := Except.ok (f _ctx w), invoked := [Invocation.handler f _ctx] }
    | none => { outcome := Except.error CxxException.bad_function_call, invoked := [] }
  | none =>
    match s.m_not_found_handler with
    | some f =>
      { outcome := Except.ok (f _ctx w), invoked := [Invocation.not_found_handler f _ctx] }
    | none =>
      { outcome := Except.ok (Server.noHandler lib _ctx w),
        invoked := [Invocation.noHandler _ctx] }

/-- The function `routingCallback` (main.cpp, lines 181-202): the registered `Server` is
asked to route a context made of the callback arguments. -/
def routingCallback (lib : MHD σ) (_cls : Server σ) (_connection : MHD_Connection)
    (_url _method _version _upload_data : CxxString) (_upload_data_size : Nat)
    (w : World σ) : Routed σ :=
  _cls.routing lib
    { connection := _connection, url := _url, method := _method,
      upload_data := _upload_data, upload_data_size := _upload_data_size }
    _version w

/-- The function `main` (main.cpp, lines 216-233) up to the point where it sleeps: the
fallback and the health route are registered, then the server is started. -/
def main (lib : MHD σ) (w : World σ) : Server σ × World σ :=
  let server : Server σ := Server.new
  let server := server.notFound (some (ErrorHandler.notFound lib))
  let server := server.route "/health".toList "GET".toList (some (HealthHandler.handle lib))
  server.start lib "127.0.0.1".toList 8080 2 w

/-! ## Sequences of calls on a server -/

/-- One call of a public member function of `Server` that changes the server. -/
inductive ServerCall (σ : Type) where
  | notFound (_handler : Handler σ)
  | route (_path _method : CxxString) (_handler : Handler σ)
  | start (_address : CxxString) (_port : Nat) (_threads : Nat)
  | stop

/-- Whether a call is a call of `Server::notFound`. -/
def ServerCall.isNotFound : ServerCall σ → Bool
  | ServerCall.notFound _ => true
  | _ => false

/-- The server and the world after one call. -/
def Server.call (lib : MHD σ) (sw : Server σ × World σ) : ServerCall σ → Server σ × World σ
  | ServerCall.notFound h => (sw.1.notFound h, sw.2)
  | ServerCall.route p m h => (sw.1.route p m h, sw.2)
  | ServerCall.start a p n => sw.1.start lib a p n sw.2
  | ServerCall.stop => sw.1.stop lib sw.2

/-- The server and the world after a sequence of calls on a freshly constructed
server, the first call first. -/
def Server.built (lib : MHD σ) (calls : List (ServerCall σ)) (w : World σ) :
    Server σ × World σ :=
  calls.foldl (Server.call lib) (Server.new, w)

/-- The server that `main` has configured when it calls `start`: a fresh server with
the fallback and the health route registered. -/
def configured (lib : MHD σ) : Server σ :=
  ((Server.new : Server σ).notFound (some (ErrorHandler.notFound lib))).route
    "/health".toList "GET".toList (some (HealthHandler.handle lib))

/-- The sequence `start(); stop(); start()` on a server. -/
def Server.startStopStart (lib : MHD σ) (s : Server σ) (_address1 : CxxString)
    (_port1 _threads1 : Nat) (_address2 : CxxString) (_port2 _threads2 : Nat)
    (w : World σ) : Server σ × World σ :=
  let r1 := s.start lib _address1 _port1 _threads1 w
  let r2 := r1.1.stop lib r1.2
  r2.1.start lib _address2 _port2 _threads2 r2.2

/-- The calls that `main` makes on its server, in order. -/
def mainCalls (lib : MHD σ) : List (ServerCall σ) :=
  [ServerCall.notFound (some (ErrorHandler.notFound lib)),
   ServerCall.route "/health".toList "GET".toList (some (HealthHandler.handle lib)),
   ServerCall.start "127.0.0.1".toList 8080 2]

/-! ## A concrete transport, used to evaluate the definitions -/

/-- A library whose daemon and response handles are always `1` and whose calls all
succeed. -/
def mhdOk : MHD Unit where
  start_daemon := fun _ u => (some 1, u)
  stop_daemon := fun _ u => u
  create_response_from_buffer := fun _ _ u => (some 1, u)
  queue_response := fun _ _ _ u => (MHD_Result.MHD_YES, u)
  destroy_response := fun _ u => u

/-- The world before any call was made into the library. -/
def world0 : World Unit := { mhd := (), calls := [] }

/-- A handler that queues nothing and reports success. -/
def replyYes : Callable Unit := fun _ w => (MHD_Result.MHD_YES, w)

/-- A handler that queues nothing and reports failure. -/
def replyNo : Callable Unit := fun _ w => (MHD_Result.MHD_NO, w)

/-- A request for `url` with `method` on connection `7`, without upload data. -/
def request (url method : String) : RequestContext :=
  { connection := 7, url := url.toList, method := method.toList,
    upload_data := [], upload_data_size := 0 }
/-! ## Facts about characters and the routing key -/

theorem toNat_ofNat_of_lt (n : Nat) (h : n < 55296) : (Char.ofNat n).toNat = n := by
  have hv : n.isValidChar := Or.inl h
  unfold Char.ofNat
  rw [dif_pos hv]
  rfl

theorem char_eq_of_toNat_eq {c d : Char} (h : c.toNat = d.toNat) : c = d := by
  rw [← Char.ofNat_toNat c, ← Char.ofNat_toNat d, h]

theorem toNat_toupper (c : Char) :
    (toupper c).toNat = if 97 ≤ c.toNat ∧ c.toNat ≤ 122 then c.toNat - 32 else c.toNat := by
  unfold toupper
  have ha : 'a'.toNat = 97 := by decide
  have hz : 'z'.toNat = 122 := by decide
  rw [ha, hz]
  split
  · apply toNat_ofNat_of_lt; omega
  · rfl

theorem toupper_of_not_lower (c : Char) (h : ¬ (97 ≤ c.toNat ∧ c.toNat ≤ 122)) :
    toupper c = c := by
  apply char_eq_of_toNat_eq
  rw [toNat_toupper, if_neg h]

theorem mem_asciiLower_of_range (c : Char) (h : 97 ≤ c.toNat ∧ c.toNat ≤ 122) :
    c ∈ asciiLower := by
  have hc : c = Char.ofNat c.toNat := (Char.ofNat_toNat c).symm
  obtain ⟨h1, h2⟩ := h
  generalize c.toNat = n at hc h1 h2
  interval_cases n <;> (subst hc; decide)

theorem range_of_mem_asciiLower : ∀ c ∈ asciiLower, 97 ≤ c.toNat ∧ c.toNat ≤ 122 := by
  decide

theorem lookup_eq_none_of_not_mem {α β : Type} [BEq α] [LawfulBEq α] (a : α) :
    ∀ l : List (α × β), (∀ p ∈ l, p.1 ≠ a) → l.lookup a = none
  | [], _ => rfl
  | (k, v) :: l, h => by
    have hk : (a == k) = false := by
      have hne : k ≠ a := h (k, v) (List.mem_cons_self _ _)
      exact beq_false_of_ne (Ne.symm hne)
    rw [List.lookup_cons, hk]
    exact lookup_eq_none_of_not_mem a l (fun p hp => h p (List.mem_cons_of_mem _ hp))

theorem toupper_eq_asciiUppercase (c : Char) : toupper c = asciiUppercase c := by
  by_cases h : 97 ≤ c.toNat ∧ c.toNat ≤ 122
  · have key : ∀ c ∈ asciiLower, toupper c = asciiUppercase c := by decide
    exact key c (mem_asciiLower_of_range c h)
  · rw [toupper_of_not_lower c h]
    have hnone : asciiCasePairs.lookup c = none := by
      apply lookup_eq_none_of_not_mem
      intro p hp hpc
      have hl : p.1 ∈ asciiLower := (List.of_mem_zip hp).1
      exact h (hpc ▸ range_of_mem_asciiLower p.1 hl)
    unfold asciiUppercase
    rw [hnone]

theorem toupper_eq_colon_iff (c : Char) : toupper c = ':' ↔ c = ':' := by
  constructor
  · intro h
    have h2 := congrArg Char.toNat h
    rw [toNat_toupper] at h2
    have hcolon : ':'.toNat = 58 := by decide
    rw [hcolon] at h2
    apply char_eq_of_toNat_eq
    rw [hcolon]
    split at h2 <;> omega
  · rintro rfl
    decide

theorem sameUpToAsciiCase_iff (c d : Char) :
    sameUpToAsciiCase c d = true ↔ toupper c = toupper d := by
  constructor
  · intro h
    unfold sameUpToAsciiCase at h
    rw [Bool.or_eq_true] at h
    rcases h with h | h
    · rw [beq_iff_eq] at h
      rw [h]
    · rw [List.any_eq_true] at h
      obtain ⟨p, hp, hcd⟩ := h
      have key : ∀ p ∈ asciiCasePairs, toupper p.1 = toupper p.2 := by decide
      have hk := key p hp
      simp only [Bool.or_eq_true, Bool.and_eq_true, beq_iff_eq] at hcd
      rcases hcd with ⟨h1, h2⟩ | ⟨h1, h2⟩
      · rw [h1, h2, hk]
      · rw [h1, h2, hk]
  · intro h
    by_cases hc : 97 ≤ c.toNat ∧ c.toNat ≤ 122
    · by_cases hd : 97 ≤ d.toNat ∧ d.toNat ≤ 122
      · have h2 := congrArg Char.toNat h
        rw [toNat_toupper, toNat_toupper, if_pos hc, if_pos hd] at h2
        have : c = d := char_eq_of_toNat_eq (by omega)
        subst this
        simp [sameUpToAsciiCase]
      · rw [toupper_of_not_lower d hd] at h
        subst h
        have key : ∀ c ∈ asciiLower, sameUpToAsciiCase c (toupper c) = true := by decide
        exact key c (mem_asciiLower_of_range c hc)
    · rw [toupper_of_not_lower c hc] at h
      by_cases hd : 97 ≤ d.toNat ∧ d.toNat ≤ 122
      · subst h
        have key : ∀ d ∈ asciiLower, sameUpToAsciiCase (toupper d) d = true := by decide
        exact key d (mem_asciiLower_of_range d hd)
      · rw [toupper_of_not_lower d hd] at h
        subst h
        simp [sameUpToAsciiCase]

theorem equalUpToAsciiCase_iff :
    ∀ m1 m2 : CxxString, equalUpToAsciiCase m1 m2 = true ↔ m1.map toupper = m2.map toupper
  | [], [] => by simp [equalUpToAsciiCase]
  | [], _ :: _ => by simp [equalUpToAsciiCase]
  | _ :: _, [] => by simp [equalUpToAsciiCase]
  | c :: cs, d :: ds => by
    simp only [equalUpToAsciiCase, Bool.and_eq_true, List.map_cons, List.cons.injEq]
    rw [sameUpToAsciiCase_iff, equalUpToAsciiCase_iff cs ds]


theorem identifyRequest_eq_append (path method : CxxString) :
    identifyRequest path method = path ++ ':' :: method.map toupper := by
  simp [identifyRequest]

theorem colon_not_mem_map_toupper (m : CxxString) (h : ':' ∉ m) : ':' ∉ m.map toupper := by
  intro hm
  obtain ⟨c, hc, hcc⟩ := List.mem_map.mp hm
  rw [toupper_eq_colon_iff] at hcc
  exact h (hcc ▸ hc)

theorem append_colon_cancel :
    ∀ (a c b d : CxxString), ':' ∉ b → ':' ∉ d → a ++ ':' :: b = c ++ ':' :: d →
      a = c ∧ b = d
  | [], [], b, d, _, _, h => by
    simp only [List.nil_append, List.cons.injEq, true_and] at h
    exact ⟨rfl, h⟩
  | [], x :: c, b, d, hb, _, h => by
    simp only [List.nil_append, List.cons_append, List.cons.injEq] at h
    exact absurd (h.2 ▸ List.mem_append_right c (List.mem_cons_self _ _)) hb
  | x :: a, [], b, d, _, hd, h => by
    simp only [List.nil_append, List.cons_append, List.cons.injEq] at h
    exact absurd (h.2 ▸ List.mem_append_right a (List.mem_cons_self _ _)) hd
  | x :: a, y :: c, b, d, hb, hd, h => by
    simp only [List.cons_append, List.cons.injEq] at h
    obtain ⟨h1, h2⟩ := append_colon_cancel a c b d hb hd h.2
    exact ⟨by rw [h.1, h1], h2⟩

theorem identifyRequest_of_equalUpToAsciiCase (p m1 m2 : CxxString)
    (h : equalUpToAsciiCase m1 m2 = true) : identifyRequest p m1 = identifyRequest p m2 := by
  rw [identifyRequest_eq_append, identifyRequest_eq_append,
    (equalUpToAsciiCase_iff m1 m2).mp h]

theorem append_colon_cancel_left :
    ∀ (a c b d : CxxString), ':' ∉ c → ':' ∉ d → a ++ ':' :: b = c ++ ':' :: d →
      a = c ∧ b = d
  | [], [], b, d, _, _, h => by
    simp only [List.nil_append, List.cons.injEq, true_and] at h
    exact ⟨rfl, h⟩
  | [], x :: c, b, d, hc, _, h => by
    simp only [List.nil_append, List.cons_append, List.cons.injEq] at h
    exact absurd (h.1 ▸ List.mem_cons_self _ _) hc
  | x :: a, [], b, d, _, hd, h => by
    simp only [List.nil_append, List.cons_append, List.cons.injEq] at h
    exact absurd (h.2 ▸ List.mem_append_right a (List.mem_cons_self _ _)) hd
  | x :: a, y :: c, b, d, hc, hd, h => by
    simp only [List.cons_append, List.cons.injEq] at h
    obtain ⟨h1, h2⟩ := append_colon_cancel_left a c b d
      (fun hm => hc (List.mem_cons_of_mem _ hm)) hd h.2
    exact ⟨by rw [h.1, h1], h2⟩

/-! ## The claims about the routing key -/

/-- C3: for every path and method, `identifyRequest` returns the path, then the single
character `:`, then the method with every character replaced by its ASCII uppercase;
the path is the unchanged prefix of the key, and the key has `len(path) + 1 +
len(method)` characters. -/
theorem C3_identifyRequest_layout (path method : CxxString) :
    identifyRequest path method = path ++ [':'] ++ method.map asciiUppercase ∧
    (identifyRequest path method).take path.length = path ∧
    (identifyRequest path method).drop path.length = ':' :: method.map asciiUppercase ∧
    (identifyRequest path method).length = path.length + 1 + method.length := by
  have hup : method.map toupper = method.map asciiUppercase :=
    List.map_congr_left (fun c _ => toupper_eq_asciiUppercase c)
  have hkey : identifyRequest path method = path ++ ':' :: method.map asciiUppercase := by
    rw [identifyRequest_eq_append, hup]
  refine ⟨by rw [hkey]; simp, ?_, ?_, ?_⟩
  · rw [hkey, List.take_left]
  · rw [hkey, List.drop_left]
  · rw [hkey]
    simp
    omega

/-- C4: `identifyRequest` does not distinguish methods that are equal up to ASCII
letter case: for every path and every two such methods the keys are equal; in
particular the keys of `("/x", "get")` and `("/x", "GET")` are equal. -/
theorem C4_identifyRequest_method_case_insensitive :
    (∀ p m1 m2 : CxxString, equalUpToAsciiCase m1 m2 = true →
      identifyRequest p m1 = identifyRequest p m2) ∧
    identifyRequest "/x".toList "get".toList = identifyRequest "/x".toList "GET".toList := by
  exact ⟨identifyRequest_of_equalUpToAsciiCase,
    identifyRequest_of_equalUpToAsciiCase _ _ _ (by decide)⟩

/-- Witness of C4 at the path `/x` and the methods `get` and `Get`. -/
theorem C4_identifyRequest_method_case_insensitive_witness :
    equalUpToAsciiCase "get".toList "Get".toList = true ∧
    identifyRequest "/x".toList "get".toList = identifyRequest "/x".toList "Get".toList :=
  ⟨by decide,
   C4_identifyRequest_method_case_insensitive.1 "/x".toList "get".toList "Get".toList
     (by decide)⟩

/-- C10: the key identifies the request when the methods contain no `:`: for all paths
(which may contain `:`) and all colon-free methods, equal keys force equal paths,
character for character, and equal upper-cased methods.  Without the restriction on the
methods this fails: `("/a", "B:C")` and `("/a:B", "C")` have different paths and the
same key. -/
theorem C10_key_identity_for_colon_free_methods :
    (∀ p1 p2 m1 m2 : CxxString, ':' ∉ m1 → ':' ∉ m2 →
      identifyRequest p1 m1 = identifyRequest p2 m2 →
      p1 = p2 ∧ m1.map toupper = m2.map toupper ∧ equalUpToAsciiCase m1 m2 = true) ∧
    ("/a".toList ≠ "/a:B".toList ∧
      identifyRequest "/a".toList "B:C".toList = identifyRequest "/a:B".toList "C".toList) := by
  refine ⟨?_, by decide, by decide⟩
  intro p1 p2 m1 m2 h1 h2 h
  rw [identifyRequest_eq_append, identifyRequest_eq_append] at h
  obtain ⟨hp, hm⟩ := append_colon_cancel p1 p2 _ _ (colon_not_mem_map_toupper m1 h1)
    (colon_not_mem_map_toupper m2 h2) h
  exact ⟨hp, hm, (equalUpToAsciiCase_iff m1 m2).mpr hm⟩

/-- Witness of C10 at the keys of `("/Health", "get")` and `("/Health", "GET")`. -/
theorem C10_key_identity_for_colon_free_methods_witness :
    ':' ∉ "get".toList ∧ ':' ∉ "GET".toList ∧
    identifyRequest "/Health".toList "get".toList
      = identifyRequest "/Health".toList "GET".toList ∧
    ("/Health".toList = "/Health".toList ∧
      "get".toList.map toupper = "GET".toList.map toupper ∧
      equalUpToAsciiCase "get".toList "GET".toList = true) :=
  ⟨by decide, by decide, by decide,
   C10_key_identity_for_colon_free_methods.1 "/Health".toList "/Health".toList
     "get".toList "GET".toList (by decide) (by decide) (by decide)⟩

/-! ## Facts about the registry and the dispatcher -/

theorem HandlerMap.find_append_absent (m : HandlerMap σ) (key : CxxString) (h : Handler σ)
    (hm : m.find key = none) : HandlerMap.find (m ++ [(key, h)]) key = some h := by
  induction m with
  | nil => simp [HandlerMap.find]
  | cons e rest ih =>
    obtain ⟨k, v⟩ := e
    simp only [HandlerMap.find] at hm
    by_cases hk : k = key
    · simp [hk] at hm
    · simp only [hk, if_false] at hm
      simp only [List.cons_append, HandlerMap.find, hk, if_false]
      exact ih hm

theorem HandlerMap.find_emplace_same (m : HandlerMap σ) (key : CxxString) (h : Handler σ) :
    (m.emplace key h).find key = some ((m.find key).getD h) := by
  unfold HandlerMap.emplace
  cases hm : m.find key with
  | some h0 => simp [hm]
  | none => simpa using HandlerMap.find_append_absent m key h hm

theorem HandlerMap.emplace_of_find_some (m : HandlerMap σ) (key : CxxString)
    (h h0 : Handler σ) (hm : m.find key = some h0) : m.emplace key h = m := by
  unfold HandlerMap.emplace
  rw [hm]

theorem Server.route_route_same (s : Server σ) (p m : CxxString) (h1 h2 : Handler σ) :
    (s.route p m h1).route p m h2 = s.route p m h1 := by
  have hf := HandlerMap.find_emplace_same s.m_handlers (identifyRequest p m) h1
  simp only [Server.route]
  rw [HandlerMap.emplace_of_find_some _ _ h2 _ hf]

theorem Server.routing_of_find_some (lib : MHD σ) (s : Server σ) (ctx : RequestContext)
    (v : CxxString) (w : World σ) (f : Callable σ)
    (h : s.m_handlers.find (identifyRequest ctx.url ctx.method) = some (some f)) :
    s.routing lib ctx v w
      = { outcome := Except.ok (f ctx w), invoked := [Invocation.handler f ctx] } := by
  simp only [Server.routing, h]

theorem Server.routing_of_find_empty (lib : MHD σ) (s : Server σ) (ctx : RequestContext)
    (v : CxxString) (w : World σ)
    (h : s.m_handlers.find (identifyRequest ctx.url ctx.method) = some none) :
    s.routing lib ctx v w
      = { outcome := Except.error CxxException.bad_function_call, invoked := [] } := by
  simp only [Server.routing, h]

theorem Server.routing_of_fallback (lib : MHD σ) (s : Server σ) (ctx : RequestContext)
    (v : CxxString) (w : World σ) (f : Callable σ)
    (h : s.m_handlers.find (identifyRequest ctx.url ctx.method) = none)
    (hf : s.m_not_found_handler = some f) :
    s.routing lib ctx v w
      = { outcome := Except.ok (f ctx w),
          invoked := [Invocation.not_found_handler f ctx] } := by
  simp only [Server.routing, h, hf]

theorem Server.routing_of_no_fallback (lib : MHD σ) (s : Server σ) (ctx : RequestContext)
    (v : CxxString) (w : World σ)
    (h : s.m_handlers.find (identifyRequest ctx.url ctx.method) = none)
    (hf : s.m_not_found_handler = none) :
    s.routing lib ctx v w
      = { outcome := Except.ok (Server.noHandler lib ctx w),
          invoked := [Invocation.noHandler ctx] } := by
  simp only [Server.routing, h, hf]

theorem Server.routing_congr (lib : MHD σ) (s t : Server σ)
    (hh : t.m_handlers = s.m_handlers) (hf : t.m_not_found_handler = s.m_not_found_handler)
    (ctx : RequestContext) (v : CxxString) (w : World σ) :
    t.routing lib ctx v w = s.routing lib ctx v w := by
  simp only [Server.routing, hh, hf]

/-- The three library calls by which each of the built-in responders queues its
response: the world after creating a response from `body`, queueing it on `connection`
with `status`, and destroying it, and the result of the queueing. -/
theorem respond_eq (lib : MHD σ) (connection : MHD_Connection) (status : Nat)
    (body : CxxString) (w : World σ) :
    let response := lib.create_response_from_buffer body.length body w.mhd
    let ret := lib.queue_response connection status response.1 response.2
    (MHD_queue_response lib connection status
        (MHD_create_response_from_buffer lib body.length body w).1
        (MHD_create_response_from_buffer lib body.length body w).2).1 = ret.1 ∧
    MHD_destroy_response lib (MHD_create_response_from_buffer lib body.length body w).1
      (MHD_queue_response lib connection status
        (MHD_create_response_from_buffer lib body.length body w).1
        (MHD_create_response_from_buffer lib body.length body w).2).2
      = { mhd := lib.destroy_response response.1 ret.2,
          calls := w.calls ++
            [MHDCall.create_response_from_buffer body.length body response.1,
             MHDCall.queue_response connection status response.1 ret.1,
             MHDCall.destroy_response response.1] } := by
  simp [MHD_queue_response, MHD_create_response_from_buffer, MHD_destroy_response]

/-! ## Claims about registration and dispatch -/

/-- C1: on every server built by a sequence of calls of its public member functions,
when a handler `h` is stored under the key of `(path, method)`, `Server::routing` on a
request with that path and a method equal to `method` up to ASCII letter case calls `h`
once, with a context equal to the request's, returns what `h` returns, and calls
neither the fallback nor `noHandler`. -/
theorem C1_routing_calls_the_registered_handler (lib : MHD σ)
    (calls : List (ServerCall σ)) (w0 : World σ) (path method : CxxString) (h : Callable σ)
    (hreg : (Server.built lib calls w0).1.m_handlers.find (identifyRequest path method)
      = some (some h))
    (ctx : RequestContext) (hurl : ctx.url = path)
    (hmethod : equalUpToAsciiCase ctx.method method = true)
    (_version : CxxString) (w : World σ) :
    (Server.built lib calls w0).1.routing lib ctx _version w
      = { outcome := Except.ok (h ctx w), invoked := [Invocation.handler h ctx] } := by
  apply Server.routing_of_find_some
  rw [hurl, identifyRequest_of_equalUpToAsciiCase path ctx.method method hmethod]
  exact hreg

/-- Witness of C1: the configuration of `main`, a request for `/health` with the
method written `get`, and the registered health handler. -/
theorem C1_routing_calls_the_registered_handler_witness :
    (Server.built mhdOk (mainCalls mhdOk) world0).1.m_handlers.find (identifyRequest "/health".toList "GET".toList)
      = some (some (HealthHandler.handle mhdOk)) ∧
    (request "/health" "get").url = "/health".toList ∧
    equalUpToAsciiCase (request "/health" "get").method "GET".toList = true ∧
    (Server.built mhdOk (mainCalls mhdOk) world0).1.routing mhdOk (request "/health" "get") "HTTP/1.1".toList world0
      = { outcome := Except.ok (HealthHandler.handle mhdOk (request "/health" "get") world0),
          invoked := [Invocation.handler (HealthHandler.handle mhdOk)
            (request "/health" "get")] } :=
  ⟨rfl, rfl, by decide,
   C1_routing_calls_the_registered_handler mhdOk (mainCalls mhdOk) world0 "/health".toList "GET".toList
     (HealthHandler.handle mhdOk) rfl (request "/health" "get") rfl (by decide)
     "HTTP/1.1".toList world0⟩

/-- C2, as stated, fails: on a fresh server, after `route("/a", "GET", replyYes)` and
then `route("/a", "GET", replyNo)`, the handler stored under the key and called by
`Server::routing` is the first one, `replyYes`, and the request is answered with
`MHD_YES`, not with the `MHD_NO` of the second handler. -/
theorem C2_second_registration_does_not_replace :
    (((Server.new : Server Unit).route "/a".toList "GET".toList (some replyYes)).route
        "/a".toList "GET".toList (some replyNo)).m_handlers
      = [("/a:GET".toList, some replyYes)] ∧
    ((((Server.new : Server Unit).route "/a".toList "GET".toList (some replyYes)).route
        "/a".toList "GET".toList (some replyNo)).routing mhdOk (request "/a" "GET")
        "HTTP/1.1".toList world0).outcome.toOption.map Prod.fst = some MHD_Result.MHD_YES ∧
    ((((Server.new : Server Unit).route "/a".toList "GET".toList (some replyYes)).route
        "/a".toList "GET".toList (some replyNo)).routing mhdOk (request "/a" "GET")
        "HTTP/1.1".toList world0).invoked
      = [Invocation.handler replyYes (request "/a" "GET")] ∧
    (replyNo (request "/a" "GET") world0).1 = MHD_Result.MHD_NO ∧
    ((((Server.new : Server Unit).route "/a".toList "GET".toList (some replyYes)).route
        "/a".toList "GET".toList (some replyNo)).routing mhdOk (request "/a" "GET")
        "HTTP/1.1".toList world0).outcome.toOption.map Prod.fst
      ≠ some (replyNo (request "/a" "GET") world0).1 := by
  refine ⟨rfl, rfl, rfl, rfl, ?_⟩
  decide

/-- C2, amended: after `route(path, method, h1)` followed by `route(path, method, h2)`
on any server, the second call leaves the server as the first call left it
(`emplace` does not overwrite).  The handler stored under the key is the one that was
there before both calls if there was one, and `h1` otherwise; `Server::routing` for
`(path, method)` calls that handler, and throws if it is an empty function. -/
theorem C2_first_registration_wins (lib : MHD σ) (s : Server σ) (path method : CxxString)
    (h1 h2 : Handler σ) (ctx : RequestContext) (hurl : ctx.url = path)
    (hmethod : ctx.method = method) (_version : CxxString) (w : World σ) :
    (s.route path method h1).route path method h2 = s.route path method h1 ∧
    ((s.route path method h1).route path method h2).m_handlers.find
        (identifyRequest path method)
      = some ((s.m_handlers.find (identifyRequest path method)).getD h1) ∧
    ((s.route path method h1).route path method h2).routing lib ctx _version w
      = match (s.m_handlers.find (identifyRequest path method)).getD h1 with
        | some f => { outcome := Except.ok (f ctx w), invoked := [Invocation.handler f ctx] }
        | none => { outcome := Except.error CxxException.bad_function_call, invoked := [] } := by
  have hsame := Server.route_route_same s path method h1 h2
  have hfind : (s.route path method h1).m_handlers.find (identifyRequest path method)
      = some ((s.m_handlers.find (identifyRequest path method)).getD h1) :=
    HandlerMap.find_emplace_same s.m_handlers (identifyRequest path method) h1
  refine ⟨hsame, by rw [hsame]; exact hfind, ?_⟩
  rw [hsame]
  subst hurl hmethod
  cases hg : (s.m_handlers.find (identifyRequest ctx.url ctx.method)).getD h1 with
  | some f =>
    rw [hg] at hfind
    exact Server.routing_of_find_some lib _ ctx _version w f hfind
  | none =>
    rw [hg] at hfind
    exact Server.routing_of_find_empty lib _ ctx _version w hfind

/-- Witness of the amended C2: the two registrations of the counterexample. -/
theorem C2_first_registration_wins_witness :
    (request "/a" "GET").url = "/a".toList ∧ (request "/a" "GET").method = "GET".toList ∧
    (((Server.new : Server Unit).route "/a".toList "GET".toList (some replyYes)).route
        "/a".toList "GET".toList (some replyNo)).routing mhdOk (request "/a" "GET")
        "HTTP/1.1".toList world0
      = { outcome := Except.ok (replyYes (request "/a" "GET") world0),
          invoked := [Invocation.handler replyYes (request "/a" "GET")] } :=
  ⟨rfl, rfl,
   (C2_first_registration_wins mhdOk Server.new "/a".toList "GET".toList (some replyYes)
     (some replyNo) (request "/a" "GET") rfl rfl "HTTP/1.1".toList world0).2.2⟩

/-! ## The configuration built by `main` -/

theorem built_mainCalls (lib : MHD σ) (w0 : World σ) :
    Server.built lib (mainCalls lib) w0 = main lib w0 := rfl

theorem main_eq_start_configured (lib : MHD σ) (w0 : World σ) :
    main lib w0 = (configured lib).start lib "127.0.0.1".toList 8080 2 w0 := rfl

theorem main_m_handlers (lib : MHD σ) (w0 : World σ) :
    (main lib w0).1.m_handlers = [("/health:GET".toList, some (HealthHandler.handle lib))] :=
  rfl

theorem main_m_not_found_handler (lib : MHD σ) (w0 : World σ) :
    (main lib w0).1.m_not_found_handler = some (ErrorHandler.notFound lib) := rfl

theorem main_find_eq_none_iff (lib : MHD σ) (w0 : World σ) (path method : CxxString) :
    (main lib w0).1.m_handlers.find (identifyRequest path method) = none ↔
      ¬ (path = "/health".toList ∧ equalUpToAsciiCase method "GET".toList = true) := by
  rw [main_m_handlers]
  simp only [HandlerMap.find]
  have hkey : "/health:GET".toList = "/health".toList ++ ':' :: "GET".toList.map toupper := by
    decide
  constructor
  · intro h ⟨hp, hm⟩
    have hk : "/health:GET".toList = identifyRequest path method := by
      rw [identifyRequest_eq_append, hp, (equalUpToAsciiCase_iff _ _).mp hm]
      exact hkey
    rw [if_pos hk] at h
    exact Option.noConfusion h
  · intro h
    have hk : ¬ "/health:GET".toList = identifyRequest path method := by
      intro hk
      rw [identifyRequest_eq_append, hkey] at hk
      obtain ⟨hp, hm⟩ := append_colon_cancel_left path "/health".toList _ _
        (by decide) (by decide) hk.symm
      exact h ⟨hp, (equalUpToAsciiCase_iff _ _).mpr hm⟩
    rw [if_neg hk]

theorem Server.call_keeps_empty_fallback (lib : MHD σ) (sw : Server σ × World σ)
    (c : ServerCall σ) (hc : c.isNotFound = false) (h : sw.1.m_not_found_handler = none) :
    (Server.call lib sw c).1.m_not_found_handler = none := by
  cases c with
  | notFound f => simp [ServerCall.isNotFound] at hc
  | route p m f => exact h
  | start a p n => exact h
  | stop => exact h

theorem Server.foldl_call_keeps_empty_fallback (lib : MHD σ) :
    ∀ (calls : List (ServerCall σ)) (sw : Server σ × World σ),
      (∀ c ∈ calls, c.isNotFound = false) → sw.1.m_not_found_handler = none →
      (calls.foldl (Server.call lib) sw).1.m_not_found_handler = none
  | [], _, _, h => h
  | c :: rest, sw, hc, h => by
    rw [List.foldl_cons]
    exact Server.foldl_call_keeps_empty_fallback lib rest _
      (fun c1 h1 => hc c1 (List.mem_cons_of_mem _ h1))
      (Server.call_keeps_empty_fallback lib sw c (hc c (List.mem_cons_self _ _)) h)

/-! ## Claims about the responses -/

/-- C5: in the configuration built by `main`, `Server::routing` on a request for
`/health` with the method `GET` calls the health handler, which makes one
`MHD_queue_response` call, on the connection of the request, with status 200 and the
response created from the 16 characters `{"status":"UP"}` and a newline, and the result
of that call is what `routing` returns. -/
theorem C5_health_request_gets_200_UP (lib : MHD σ) (w0 : World σ)
    (connection : MHD_Connection) (upload_data : CxxString) (upload_data_size : Nat)
    (_version : CxxString) (w : World σ) :
    let ctx : RequestContext :=
      { connection := connection, url := "/health".toList, method := "GET".toList,
        upload_data := upload_data, upload_data_size := upload_data_size }
    let body : CxxString := "\x7b\"status\":\"UP\"\x7d\n".toList
    let response := lib.create_response_from_buffer 16 body w.mhd
    let ret := lib.queue_response connection 200 response.1 response.2
    (main lib w0).1.routing lib ctx _version w
      = { outcome := Except.ok (ret.1,
            { mhd := lib.destroy_response response.1 ret.2,
              calls := w.calls ++
                [MHDCall.create_response_from_buffer 16 body response.1,
                 MHDCall.queue_response connection 200 response.1 ret.1,
                 MHDCall.destroy_response response.1] }),
          invoked := [Invocation.handler (HealthHandler.handle lib) ctx] } ∧
    body.length = 16 ∧
    body.map Char.toNat
      = [123, 34, 115, 116, 97, 116, 117, 115, 34, 58, 34, 85, 80, 34, 125, 10] := by
  intro ctx body response ret
  refine ⟨?_, by decide, by decide⟩
  have hfind : (main lib w0).1.m_handlers.find (identifyRequest ctx.url ctx.method)
      = some (some (HealthHandler.handle lib)) := rfl
  rw [Server.routing_of_find_some lib _ ctx _version w _ hfind]
  have hr := respond_eq lib connection 200 body w
  simp only at hr
  have hlen : body.length = 16 := by decide
  rw [hlen] at hr
  have hh : HealthHandler.handle lib ctx w
      = (ret.1, { mhd := lib.destroy_response response.1 ret.2,
                  calls := w.calls ++
                    [MHDCall.create_response_from_buffer 16 body response.1,
                     MHDCall.queue_response connection 200 response.1 ret.1,
                     MHDCall.destroy_response response.1] }) := by
    apply Prod.ext
    · exact hr.1
    · exact hr.2
  rw [hh]

/-- C6: in the configuration built by `main`, for every request that is not for the
path `/health` with a method equal to `GET` up to ASCII letter case, the key is not in
the registry and `Server::routing` calls the fallback `ErrorHandler::notFound`, which
makes one `MHD_queue_response` call, with status 404 and the response created from
`Unknown request: "`, the path, `"` and a newline; what that call returns is returned. -/
theorem C6_unregistered_request_gets_fallback_404 (lib : MHD σ) (w0 : World σ)
    (ctx : RequestContext)
    (hunreg : ¬ (ctx.url = "/health".toList ∧
      equalUpToAsciiCase ctx.method "GET".toList = true))
    (_version : CxxString) (w : World σ) :
    let body : CxxString := "Unknown request: \"".toList ++ ctx.url ++ "\"\n".toList
    let response := lib.create_response_from_buffer body.length body w.mhd
    let ret := lib.queue_response ctx.connection 404 response.1 response.2
    (main lib w0).1.m_handlers.find (identifyRequest ctx.url ctx.method) = none ∧
    (main lib w0).1.routing lib ctx _version w
      = { outcome := Except.ok (ret.1,
            { mhd := lib.destroy_response response.1 ret.2,
              calls := w.calls ++
                [MHDCall.create_response_from_buffer body.length body response.1,
                 MHDCall.queue_response ctx.connection 404 response.1 ret.1,
                 MHDCall.destroy_response response.1] }),
          invoked := [Invocation.not_found_handler (ErrorHandler.notFound lib) ctx] } := by
  intro body response ret
  have hfind := (main_find_eq_none_iff lib w0 ctx.url ctx.method).mpr hunreg
  refine ⟨hfind, ?_⟩
  rw [Server.routing_of_fallback lib _ ctx _version w _ hfind
    (main_m_not_found_handler lib w0)]
  have hr := respond_eq lib ctx.connection 404 body w
  have hh : ErrorHandler.notFound lib ctx w
      = (ret.1, { mhd := lib.destroy_response response.1 ret.2,
                  calls := w.calls ++
                    [MHDCall.create_response_from_buffer body.length body response.1,
                     MHDCall.queue_response ctx.connection 404 response.1 ret.1,
                     MHDCall.destroy_response response.1] }) :=
    Prod.ext hr.1 hr.2
  rw [hh]

/-- Witness of C6: the request `GET /nope` is answered by the fallback with status 404
and the 25 characters `Unknown request: "/nope"` and a newline. -/
theorem C6_unregistered_request_gets_fallback_404_witness :
    ¬ ((request "/nope" "GET").url = "/health".toList ∧
      equalUpToAsciiCase (request "/nope" "GET").method "GET".toList = true) ∧
    (main mhdOk world0).1.routing mhdOk (request "/nope" "GET") "HTTP/1.1".toList world0
      = { outcome := Except.ok (MHD_Result.MHD_YES,
            { mhd := (),
              calls :=
                [MHDCall.create_response_from_buffer 25 "Unknown request: \"/nope\"\n".toList
                   (some 1),
                 MHDCall.queue_response 7 404 (some 1) MHD_Result.MHD_YES,
                 MHDCall.destroy_response (some 1)] }),
          invoked := [Invocation.not_found_handler (ErrorHandler.notFound mhdOk)
            (request "/nope" "GET")] } :=
  ⟨by decide,
   (C6_unregistered_request_gets_fallback_404 mhdOk world0 (request "/nope" "GET")
     (by decide) "HTTP/1.1".toList world0).2⟩

/-- C7: on every server built by calls among which there is no `notFound` call, for
every request whose key is not in the registry, `Server::routing` calls the built-in
`noHandler` and nothing else; `noHandler` makes one `MHD_queue_response` call, with
status 404 and the response created from the 9 characters `not found`, and what that
call returns is returned. -/
theorem C7_unregistered_request_without_fallback_gets_plain_404 (lib : MHD σ)
    (calls : List (ServerCall σ)) (hcalls : ∀ c ∈ calls, c.isNotFound = false)
    (w0 : World σ) (ctx : RequestContext)
    (habsent : (Server.built lib calls w0).1.m_handlers.find
      (identifyRequest ctx.url ctx.method) = none)
    (_version : CxxString) (w : World σ) :
    let body : CxxString := "not found".toList
    let response := lib.create_response_from_buffer 9 body w.mhd
    let ret := lib.queue_response ctx.connection 404 response.1 response.2
    (Server.built lib calls w0).1.routing lib ctx _version w
      = { outcome := Except.ok (ret.1,
            { mhd := lib.destroy_response response.1 ret.2,
              calls := w.calls ++
                [MHDCall.create_response_from_buffer 9 body response.1,
                 MHDCall.queue_response ctx.connection 404 response.1 ret.1,
                 MHDCall.destroy_response response.1] }),
          invoked := [Invocation.noHandler ctx] } ∧
    body.length = 9 ∧
    body.map Char.toNat = [110, 111, 116, 32, 102, 111, 117, 110, 100] := by
  intro body response ret
  refine ⟨?_, by decide, by decide⟩
  have hnf : (Server.built lib calls w0).1.m_not_found_handler = none :=
    Server.foldl_call_keeps_empty_fallback lib calls _ hcalls rfl
  rw [Server.routing_of_no_fallback lib _ ctx _version w habsent hnf]
  have hr := respond_eq lib ctx.connection 404 body w
  have hlen : body.length = 9 := by decide
  rw [hlen] at hr
  have hh : Server.noHandler lib ctx w
      = (ret.1, { mhd := lib.destroy_response response.1 ret.2,
                  calls := w.calls ++
                    [MHDCall.create_response_from_buffer 9 body response.1,
                     MHDCall.queue_response ctx.connection 404 response.1 ret.1,
                     MHDCall.destroy_response response.1] }) :=
    Prod.ext hr.1 hr.2
  rw [hh]

/-- Witness of C7: a server with the health route, started, without a fallback, and the
request `GET /nope`. -/
theorem C7_unregistered_request_without_fallback_gets_plain_404_witness :
    (∀ c ∈ [ServerCall.route "/health".toList "GET".toList (some (HealthHandler.handle mhdOk)),
        ServerCall.start "127.0.0.1".toList 8080 2], c.isNotFound = false) ∧
    (Server.built mhdOk
        [ServerCall.route "/health".toList "GET".toList (some (HealthHandler.handle mhdOk)),
         ServerCall.start "127.0.0.1".toList 8080 2]
        world0).1.m_handlers.find
      (identifyRequest (request "/nope" "GET").url (request "/nope" "GET").method) = none ∧
    (Server.built mhdOk
        [ServerCall.route "/health".toList "GET".toList (some (HealthHandler.handle mhdOk)),
         ServerCall.start "127.0.0.1".toList 8080 2]
        world0).1.routing mhdOk (request "/nope" "GET") "HTTP/1.1".toList world0
      = { outcome := Except.ok (MHD_Result.MHD_YES,
            { mhd := (),
              calls :=
                [MHDCall.create_response_from_buffer 9 "not found".toList (some 1),
                 MHDCall.queue_response 7 404 (some 1) MHD_Result.MHD_YES,
                 MHDCall.destroy_response (some 1)] }),
          invoked := [Invocation.noHandler (request "/nope" "GET")] } :=
  ⟨by simp [ServerCall.isNotFound], rfl,
   (C7_unregistered_request_without_fallback_gets_plain_404 mhdOk
     [ServerCall.route "/health".toList "GET".toList (some (HealthHandler.handle mhdOk)),
      ServerCall.start "127.0.0.1".toList 8080 2]
     (by simp [ServerCall.isNotFound]) world0 (request "/nope" "GET") rfl
     "HTTP/1.1".toList world0).1⟩

/-! ## Claims about the lifecycle -/

/-- C8: `start()` and `stop()` change only the daemon handle, on every server and
whatever the library returns: the registry and the fallback are the same after them.
Consequently, after `start(); stop(); start()` in which the library returns the daemons
`d1` and `d2` for the two starts, the server is the original one with the handle `d2`
(Running), `stop()` has passed `d1` to `MHD_stop_daemon`, and `Server::routing` treats
every request as the original server does. -/
theorem C8_lifecycle_restart_keeps_routes (lib : MHD σ) (s : Server σ) (w : World σ)
    (address1 address2 : CxxString) (port1 threads1 port2 threads2 : Nat) :
    ((s.start lib address1 port1 threads1 w).1
        = { s with m_service := (lib.start_daemon (port1 % 2 ^ 16) w.mhd).1 } ∧
      (s.start lib address1 port1 threads1 w).1.m_handlers = s.m_handlers ∧
      (s.start lib address1 port1 threads1 w).1.m_not_found_handler
        = s.m_not_found_handler) ∧
    ((s.stop lib w).1 = { s with m_service := none } ∧
      (s.stop lib w).1.m_handlers = s.m_handlers ∧
      (s.stop lib w).1.m_not_found_handler = s.m_not_found_handler) ∧
    (∀ d1 d2 : MHD_Daemon,
      (lib.start_daemon (port1 % 2 ^ 16) w.mhd).1 = some d1 →
      (lib.start_daemon (port2 % 2 ^ 16)
        (lib.stop_daemon (some d1) (lib.start_daemon (port1 % 2 ^ 16) w.mhd).2)).1
          = some d2 →
      (s.startStopStart lib address1 port1 threads1 address2 port2 threads2 w).1
        = { s with m_service := some d2 } ∧
      (s.startStopStart lib address1 port1 threads1 address2 port2 threads2 w).1.m_service
        ≠ none ∧
      (s.startStopStart lib address1 port1 threads1 address2 port2 threads2 w).2.calls
        = w.calls ++
          [MHDCall.start_daemon (port1 % 2 ^ 16) (some d1), MHDCall.stop_daemon (some d1),
           MHDCall.start_daemon (port2 % 2 ^ 16) (some d2)] ∧
      (∀ (ctx : RequestContext) (_version : CxxString) (w1 : World σ),
        (s.startStopStart lib address1 port1 threads1 address2 port2 threads2 w).1.routing
            lib ctx _version w1
          = s.routing lib ctx _version w1)) := by
  refine ⟨⟨rfl, rfl, rfl⟩, ⟨rfl, rfl, rfl⟩, ?_⟩
  intro d1 d2 hstart1 hstart2
  have h3 : (s.startStopStart lib address1 port1 threads1 address2 port2 threads2 w).1
      = { s with m_service := some d2 } := by
    simp only [Server.startStopStart, Server.start, Server.stop, MHD_start_daemon,
      MHD_stop_daemon, hstart1, hstart2]
  refine ⟨h3, ?_, ?_, ?_⟩
  · rw [h3]
    exact Option.some_ne_none d2
  · simp only [Server.startStopStart, Server.start, Server.stop, MHD_start_daemon,
      MHD_stop_daemon, hstart1, hstart2]
    simp
  · intro ctx v w1
    rw [h3]
    exact Server.routing_congr lib s _ rfl rfl ctx v w1

/-- Witness of C8: the server configured by `main`, restarted on port 8080 with a
library whose starts succeed; it is Running and routes every request as before. -/
theorem C8_lifecycle_restart_keeps_routes_witness :
    (mhdOk.start_daemon (8080 % 2 ^ 16) world0.mhd).1 = some 1 ∧
    (mhdOk.start_daemon (8080 % 2 ^ 16)
      (mhdOk.stop_daemon (some 1) (mhdOk.start_daemon (8080 % 2 ^ 16) world0.mhd).2)).1
      = some 1 ∧
    ((configured mhdOk).startStopStart mhdOk "127.0.0.1".toList 8080 2
        "127.0.0.1".toList 8080 2 world0).1.m_service ≠ none ∧
    (∀ (ctx : RequestContext) (_version : CxxString) (w1 : World Unit),
      ((configured mhdOk).startStopStart mhdOk "127.0.0.1".toList 8080 2
          "127.0.0.1".toList 8080 2 world0).1.routing mhdOk ctx _version w1
        = (configured mhdOk).routing mhdOk ctx _version w1) :=
  ⟨rfl, rfl,
   ((C8_lifecycle_restart_keeps_routes mhdOk (configured mhdOk) world0 "127.0.0.1".toList
     "127.0.0.1".toList 8080 2 8080 2).2.2 1 1 rfl rfl).2.1,
   ((C8_lifecycle_restart_keeps_routes mhdOk (configured mhdOk) world0 "127.0.0.1".toList
     "127.0.0.1".toList 8080 2 8080 2).2.2 1 1 rfl rfl).2.2.2⟩

/-- C9, as stated, fails: `stop()` on a freshly constructed server, which is Stopped,
does perform a transport operation, the call `MHD_stop_daemon(NULL)`. -/
theorem C9_stop_on_stopped_server_calls_the_library :
    (Server.new : Server Unit).m_service = none ∧
    ((Server.new : Server Unit).stop mhdOk world0).2.calls = [MHDCall.stop_daemon none] ∧
    ((Server.new : Server Unit).stop mhdOk world0).2.calls ≠ world0.calls := by
  refine ⟨rfl, rfl, ?_⟩
  decide

/-- C9, amended: `stop()` always ends in the Stopped state (null daemon handle) and
always makes exactly one library call, `MHD_stop_daemon` on the handle it held; on a
server that is already Stopped the `Server` object is unchanged and that call is
`MHD_stop_daemon(NULL)`.  The destructor is what skips the call on a Stopped server. -/
theorem C9_stop_ends_stopped_and_always_calls_stop_daemon (lib : MHD σ) (s : Server σ)
    (w : World σ) :
    (s.stop lib w).1.m_service = none ∧
    (s.stop lib w).2.calls = w.calls ++ [MHDCall.stop_daemon s.m_service] ∧
    (s.m_service = none →
      (s.stop lib w).1 = s ∧
      (s.stop lib w).2.calls = w.calls ++ [MHDCall.stop_daemon none] ∧
      s.destroy lib w = w) := by
  refine ⟨rfl, rfl, ?_⟩
  intro hs
  refine ⟨?_, ?_, ?_⟩
  · cases s
    simp only [Server.stop] at hs ⊢
    rw [hs]
  · simp only [Server.stop, MHD_stop_daemon, hs]
  · simp only [Server.destroy, hs]

/-- Witness of the amended C9: a freshly constructed server, which is Stopped. -/
theorem C9_stop_ends_stopped_and_always_calls_stop_daemon_witness :
    (Server.new : Server Unit).m_service = none ∧
    ((Server.new : Server Unit).stop mhdOk world0).1.m_service = none ∧
    ((Server.new : Server Unit).stop mhdOk world0).2.calls = [MHDCall.stop_daemon none] ∧
    (Server.new : Server Unit).destroy mhdOk world0 = world0 :=
  ⟨rfl,
   (C9_stop_ends_stopped_and_always_calls_stop_daemon mhdOk Server.new world0).1,
   ((C9_stop_ends_stopped_and_always_calls_stop_daemon mhdOk Server.new world0).2.2 rfl).2.1,
   ((C9_stop_ends_stopped_and_always_calls_stop_daemon mhdOk Server.new world0).2.2 rfl).2.2⟩

end RestServer
